import Mathlib

/-!
Verification development for the blueprint-analysis service
(`ai_service`): shallow embedding of the trade classifier, scale
detector, vision-model call plumbing, multi-page aggregation and bid
arithmetic, together with theorems settling the specified properties.

Embedding conventions:
* Python `str` is `String`; Python floats that carry exact decimal
  arithmetic in the spec are `ℚ`; Python `int` is `Int`.
* A Python `dict` context is a structure of optional fields; dict
  mutation is explicit state passing (functions return the context
  object's post-call state).
* Fallible code returns `Except PyExc _`.
-/

namespace AiService

/-- `occursAt n h` : `n` occurs in `h` at some position (as a prefix of
some suffix).  Helper for Python substring containment. -/
def occursAt (n : List Char) : List Char → Bool
  | [] => n.isEmpty
  | c :: t => n.isPrefixOf (c :: t) || occursAt n t

/-- `strContains hay needle` is Python `needle in hay`. -/
def strContains (hay needle : String) : Bool :=
  occursAt needle.data hay.data

/-- Scale information dictionary returned by `_detect_scale`
(`scale_string`, `detected_pattern`, `confidence`). -/
structure ScaleInfo where
  scale_string : String
  detected_pattern : String
  confidence : ℚ
deriving DecidableEq, Repr

/-- A symbol library: nested mapping category → recognized symbol names
(`ELECTRICAL_SYMBOLS` etc. in `app/prompts/templates.py`). -/
def SymbolLibrary := List (String × List String)
deriving DecidableEq, Repr

/-- The Python `dict` passed as `context` through the vision pipeline,
modelled as a structure of the keys the code reads or writes.
`extra` records whether the dict holds any key beyond the modelled
ones (it only matters for Python dict truthiness). -/
structure Ctx where
  trade_type : Option String := none
  scale_info : Option ScaleInfo := none
  symbol_library : Option SymbolLibrary := none
  page_number : Option Nat := none
  total_pages : Option Nat := none
  extra : Bool := false
deriving DecidableEq, Repr

/-- Python truthiness of the context dict: `bool(context)` is `False`
exactly when the dict is empty. -/
def Ctx.isTruthy (c : Ctx) : Bool :=
  c.trade_type.isSome || c.scale_info.isSome || c.symbol_library.isSome ||
  c.page_number.isSome || c.total_pages.isSome || c.extra

/-- Python `str.lower()` on the relevant (ASCII) range, defined by
structural recursion over the character list. -/
def strToLower (s : String) : String := String.mk (s.data.map Char.toLower)

/-! ## Trade classifier (`VisionService._detect_trade_type`) -/

/-- `VisionService.TRADE_TYPES`. -/
def TRADE_TYPES : List String :=
  ["electrical", "plumbing", "hvac", "structural", "general"]

/-- Keyword list for electrical (from `_detect_trade_type`). -/
def electrical_keywords : List String :=
  ["electrical", "lighting", "outlet", "switch", "panel", "circuit", "voltage"]

/-- Keyword list for plumbing. -/
def plumbing_keywords : List String :=
  ["plumbing", "water", "drain", "sewer", "fixture", "toilet", "sink"]

/-- Keyword list for hvac. -/
def hvac_keywords : List String :=
  ["hvac", "mechanical", "heating", "cooling", "duct", "furnace", "air conditioning"]

/-- Keyword list for structural. -/
def structural_keywords : List String :=
  ["structural", "beam", "column", "foundation", "footing", "joist", "truss"]

/-- `sum(1 for kw in keywords if kw in ocr_lower)`. -/
def countHits (kws : List String) (ocr_lower : String) : Nat :=
  (kws.filter (fun kw => strContains ocr_lower kw)).length

/-- The `keyword_counts` dict, in Python insertion order. -/
def keyword_counts (ocr_lower : String) : List (String × Nat) :=
  [("electrical", countHits electrical_keywords ocr_lower),
   ("plumbing", countHits plumbing_keywords ocr_lower),
   ("hvac", countHits hvac_keywords ocr_lower),
   ("structural", countHits structural_keywords ocr_lower)]

/-- `max(keyword_counts.values())` (the list is non-empty; `0` is a
neutral base since counts are naturals). -/
def maxValue (l : List (String × Nat)) : Nat :=
  (l.map (fun p => p.2)).foldl Nat.max 0

/-- Tail of Python `max(iterable, key=...)`: keep the incumbent unless a
later entry is strictly greater (so ties go to the earliest entry). -/
def argmaxGo (bk : String) (bv : Nat) : List (String × Nat) → String
  | [] => bk
  | (k, v) :: rest => if bv < v then argmaxGo k v rest else argmaxGo bk bv rest

/-- Python `max(keyword_counts, key=keyword_counts.get)`: first key
attaining the maximal value.  (Python raises on an empty dict; the code
only applies this to the fixed four-entry dict.) -/
def argmaxFirst : List (String × Nat) → String
  | [] => "general"
  | (k, v) :: rest => argmaxGo k v rest

/-- The context-override step of `_detect_trade_type`
(`if context and "trade_type" in context: ...`): yields the validated
lower-cased override, or `none` to fall through to keyword counting. -/
def ctxOverride (context : Option Ctx) : Option String :=
  match context with
  | none => none
  | some c =>
    if c.isTruthy then
      match c.trade_type with
      | none => none
      | some v =>
        let trade := strToLower v
        if TRADE_TYPES.contains trade then some trade else none
    else none

/-- `VisionService._detect_trade_type`. -/
def detect_trade_type (ocr_text : String) (context : Option Ctx) : String :=
  match ctxOverride context with
  | some t => t
  | none =>
    let ocr_lower := if ocr_text = "" then "" else strToLower ocr_text
    let counts := keyword_counts ocr_lower
    let max_count := maxValue counts
    if 2 ≤ max_count then argmaxFirst counts else "general"

/-! ## Regex engine for the fixed `SCALE_PATTERNS`

The eight patterns only use literal characters, character classes over
literals / `\d` / `\s`, and greedy `*` / `+` over character classes, so
a small backtracking matcher reproduces Python `re.search` with
`re.IGNORECASE` exactly on them. -/

/-- A single-character regex atom. -/
inductive CAtom where
  | ch (c : Char)
  | digit
  | space
deriving DecidableEq, Repr

/-- Python `\s` on the relevant (ASCII) range. -/
def isSpaceChar (c : Char) : Bool :=
  c = ' ' || c = '\t' || c = '\n' || c = '\r' || c = '\x0b' || c = '\x0c'

/-- Atom match, case-insensitive (`re.IGNORECASE`). -/
def CAtom.matches : CAtom → Char → Bool
  | .ch a, c => a.toLower = c.toLower
  | .digit, c => c.isDigit
  | .space, c => isSpaceChar c

/-- A regex element: one atom, a character class, or a greedy star of a
character class (`x+` is desugared to `[x][x]*`). -/
inductive RE where
  | one (a : CAtom)
  | cls (as : List CAtom)
  | star (as : List CAtom)
deriving DecidableEq, Repr

mutual

/-- Match a regex sequence against a prefix of `s`; returns the number
of consumed characters of the first (greedy, backtracking) match, as
Python's engine would produce at this start position. -/
def matchSeq : List RE → List Char → Option Nat
  | [], _ => some 0
  | .one _ :: _, [] => none
  | .one a :: rs, c :: s =>
    if a.matches c then (matchSeq rs s).map (· + 1) else none
  | .cls _ :: _, [] => none
  | .cls as :: rs, c :: s =>
    if as.any (fun a => a.matches c) then (matchSeq rs s).map (· + 1) else none
  | .star as :: rs, s => starGreedy as rs s
termination_by rs s => (s.length, rs.length, 1)

/-- Greedy star with backtracking: consume as many class characters as
possible, falling back to the continuation on failure. -/
def starGreedy (as : List CAtom) (rs : List RE) : List Char → Option Nat
  | [] => matchSeq rs []
  | c :: s =>
    if as.any (fun a => a.matches c) then
      match starGreedy as rs s with
      | some n => some (n + 1)
      | none => matchSeq rs (c :: s)
    else matchSeq rs (c :: s)
termination_by s => (s.length, rs.length + 1, 0)

end

/-- Try the pattern at successive start positions (leftmost wins), as
`re.search` does; returns (start index, match length). -/
def searchAux (re : List RE) : List Char → Nat → Option (Nat × Nat)
  | s, i =>
    match matchSeq re s with
    | some n => some (i, n)
    | none =>
      match s with
      | [] => none
      | _ :: s2 => searchAux re s2 (i + 1)

/-- `re.search(pattern, text, re.IGNORECASE)` restricted to
`match.group(0)`. -/
def reSearch (re : List RE) (t : String) : Option String :=
  match searchAux re t.data 0 with
  | some (i, n) => some (String.mk ((t.data.drop i).take n))
  | none => none

/-- `[x' x'-]` class used by the fractional scale patterns
(an apostrophe or a hyphen). -/
def aposDash : List CAtom := [.ch '\x27', .ch '-']

/-- Body of the fractional-inch patterns after the fraction:
`"\s*=\s*1['\-]0"`. -/
def eqFootTail : List RE :=
  [.one (.ch '"'), .star [.space], .one (.ch '='), .star [.space],
   .one (.ch '1'), .cls aposDash, .one (.ch '0'), .one (.ch '"')]

/-- `SCALE_PATTERNS` from `app/prompts/templates.py`, each with its
regex source text (stored into `detected_pattern`) and its embedding. -/
def SCALE_PATTERNS : List (String × List RE) :=
  [("1/4\"\\s*=\\s*1[\x27\\-]0\"",
    [.one (.ch '1'), .one (.ch '/'), .one (.ch '4')] ++ eqFootTail),
   ("1/8\"\\s*=\\s*1[\x27\\-]0\"",
    [.one (.ch '1'), .one (.ch '/'), .one (.ch '8')] ++ eqFootTail),
   ("1/2\"\\s*=\\s*1[\x27\\-]0\"",
    [.one (.ch '1'), .one (.ch '/'), .one (.ch '2')] ++ eqFootTail),
   ("3/8\"\\s*=\\s*1[\x27\\-]0\"",
    [.one (.ch '3'), .one (.ch '/'), .one (.ch '8')] ++ eqFootTail),
   ("1\"\\s*=\\s*1[\x27\\-]0\"",
    [.one (.ch '1')] ++ eqFootTail),
   ("3/16\"\\s*=\\s*1[\x27\\-]0\"",
    [.one (.ch '3'), .one (.ch '/'), .one (.ch '1'), .one (.ch '6')] ++ eqFootTail),
   ("1:\\d+",
    [.one (.ch '1'), .one (.ch ':'), .cls [.digit], .star [.digit]]),
   ("SCALE[:\\s]+[\\d/]+",
    [.one (.ch 'S'), .one (.ch 'C'), .one (.ch 'A'), .one (.ch 'L'), .one (.ch 'E'),
     .cls [.ch ':', .space], .star [.ch ':', .space],
     .cls [.digit, .ch '/'], .star [.digit, .ch '/']])]

/-- Pattern loop of `_detect_scale`: first pattern (in list order) with
a match wins; confidence is fixed at `0.9`. -/
def detect_scale_go : List (String × List RE) → String → Option ScaleInfo
  | [], _ => none
  | (src, re) :: ps, t =>
    match reSearch re t with
    | some m => some ⟨m, src, (9 : ℚ) / 10⟩
    | none => detect_scale_go ps t

/-- `VisionService._detect_scale`. -/
def detect_scale (ocr_text : String) : Option ScaleInfo :=
  if ocr_text = "" then none
  else detect_scale_go SCALE_PATTERNS ocr_text

/-! ## Response data model (`app/models/responses.py`) -/

/-- `Room` (pydantic). -/
structure Room where
  name : String
  dimensions : String
  area : ℚ
  room_type : Option String := none
deriving DecidableEq, Repr

/-- `Opening` (pydantic). -/
structure Opening where
  opening_type : String
  count : Int
  size : String
  details : Option String := none
deriving DecidableEq, Repr

/-- `Fixture` (pydantic). -/
structure Fixture where
  fixture_type : String
  category : String
  count : Int
  details : Option String := none
deriving DecidableEq, Repr

/-- `Measurement` (pydantic). -/
structure Measurement where
  measurement_type : String
  value : ℚ
  unit : String
  location : Option String := none
deriving DecidableEq, Repr

/-- `Material` (pydantic). -/
structure Material where
  material_name : String
  quantity : ℚ
  unit : String
  specifications : Option String := none
deriving DecidableEq, Repr

/-- The raw result dict produced by `json.loads` on the model output
(or by `_mock_vision_response`), before pydantic validation. -/
structure VisionResult where
  rooms : List Room := []
  openings : List Opening := []
  fixtures : List Fixture := []
  measurements : List Measurement := []
  materials : List Material := []
  confidence_score : ℚ
  scale_info : Option ScaleInfo := none
  trade_type : Option String := none
deriving DecidableEq, Repr

/-- `BlueprintAnalysis` (pydantic, `vision_service.py`): same shape,
but `confidence_score` was checked to lie in `[0, 1]`. -/
structure BlueprintAnalysis where
  rooms : List Room := []
  openings : List Opening := []
  fixtures : List Fixture := []
  measurements : List Measurement := []
  materials : List Material := []
  confidence_score : ℚ
  scale_info : Option ScaleInfo := none
  trade_type : Option String := none
deriving DecidableEq, Repr

/-- Python exceptions relevant to the vision pipeline. -/
inductive PyExc where
  /-- `json.JSONDecodeError` from `json.loads`. -/
  | jsonDecodeError
  /-- Any other exception escaping the model call (provider errors …). -/
  | apiError (msg : String)
  /-- pydantic `ValidationError` (confidence out of `[0, 1]`). -/
  | validationError
  /-- `Exception(f"Blueprint analysis failed: ...")` wrapper. -/
  | analysisFailed (e : PyExc)
  /-- `Exception(f"Multi-page blueprint analysis failed: ...")` wrapper. -/
  | multiPageFailed (e : PyExc)
deriving DecidableEq, Repr

/-! ## Symbol libraries (`app/prompts/templates.py`) -/

/-- `ELECTRICAL_SYMBOLS`. -/
def ELECTRICAL_SYMBOLS : SymbolLibrary :=
  [("outlets",
    ["duplex_outlet", "gfci_outlet", "afci_outlet", "220v_outlet",
     "floor_outlet", "weatherproof_outlet", "dedicated_outlet"]),
   ("switches",
    ["single_pole_switch", "three_way_switch", "four_way_switch",
     "dimmer_switch", "motion_sensor", "timer_switch", "smart_switch"]),
   ("lighting",
    ["ceiling_light", "wall_sconce", "recessed_light", "track_light",
     "pendant_light", "chandelier", "exit_sign", "emergency_light",
     "ceiling_fan", "ceiling_fan_with_light"]),
   ("panels",
    ["service_panel", "sub_panel", "junction_box", "pull_box",
     "transformer", "disconnect"]),
   ("low_voltage",
    ["smoke_detector", "co_detector", "doorbell", "thermostat",
     "data_outlet", "phone_outlet", "cable_outlet", "security_device"]),
   ("special",
    ["generator", "transfer_switch", "surge_protector", "meter",
     "photocell", "charging_station"])]

/-- `PLUMBING_SYMBOLS`. -/
def PLUMBING_SYMBOLS : SymbolLibrary :=
  [("fixtures",
    ["toilet", "urinal", "bidet", "lavatory_sink", "kitchen_sink",
     "utility_sink", "bar_sink", "bathtub", "shower", "shower_pan",
     "water_closet", "mop_sink"]),
   ("appliances",
    ["water_heater", "tankless_water_heater", "dishwasher",
     "washing_machine", "ice_maker", "water_softener",
     "disposal", "instant_hot_water"]),
   ("supply",
    ["cold_water_line", "hot_water_line", "hot_water_return",
     "water_main", "shutoff_valve", "angle_stop",
     "pressure_reducing_valve", "backflow_preventer",
     "expansion_tank", "water_meter"]),
   ("drainage",
    ["drain_line", "vent_stack", "soil_stack", "floor_drain",
     "cleanout", "trap", "waste_line", "overflow"]),
   ("special",
    ["gas_line", "gas_valve", "gas_meter", "hose_bibb",
     "sprinkler_head", "sump_pump", "sewage_ejector",
     "grease_trap", "oil_separator"])]

/-- `HVAC_SYMBOLS`. -/
def HVAC_SYMBOLS : SymbolLibrary :=
  [("equipment",
    ["furnace", "air_conditioner", "heat_pump", "boiler",
     "air_handler", "fan_coil_unit", "rooftop_unit",
     "condensing_unit", "evaporator_coil", "mini_split_indoor",
     "mini_split_outdoor", "package_unit"]),
   ("ductwork",
    ["supply_duct", "return_duct", "flexible_duct",
     "duct_transition", "duct_elbow", "duct_tee",
     "trunk_line", "branch_line"]),
   ("distribution",
    ["supply_diffuser", "return_grille", "register",
     "linear_diffuser", "floor_register", "ceiling_diffuser",
     "sidewall_register"]),
   ("ventilation",
    ["exhaust_fan", "range_hood", "bathroom_fan",
     "whole_house_fan", "attic_fan", "fresh_air_intake",
     "erv", "hrv", "makeup_air_unit"]),
   ("controls",
    ["thermostat", "programmable_thermostat", "zone_damper",
     "manual_damper", "fire_damper", "smoke_damper",
     "humidistat", "pressure_sensor"]),
   ("accessories",
    ["humidifier", "dehumidifier", "air_cleaner",
     "uv_light", "filter", "condensate_pump",
     "condensate_drain"])]

/-- `STRUCTURAL_SYMBOLS`. -/
def STRUCTURAL_SYMBOLS : SymbolLibrary :=
  [("foundation",
    ["footing", "spread_footing", "continuous_footing",
     "foundation_wall", "stem_wall", "grade_beam",
     "pier", "pile", "caisson", "slab_on_grade"]),
   ("framing",
    ["wood_joist", "steel_joist", "floor_joist", "ceiling_joist",
     "rafter", "truss", "beam", "girder", "header",
     "rim_joist", "blocking", "strapping"]),
   ("vertical",
    ["column", "post", "stud_wall", "bearing_wall",
     "shear_wall", "pilaster", "steel_column",
     "wood_post", "lally_column"]),
   ("connections",
    ["bolted_connection", "welded_connection", "pin_connection",
     "moment_connection", "shear_connection", "anchor_bolt",
     "hold_down", "strap", "clip_angle"]),
   ("materials",
    ["concrete", "reinforced_concrete", "steel", "wood",
     "masonry", "engineered_lumber", "glulam", "lvl",
     "psl", "osb", "plywood"]),
   ("special",
    ["expansion_joint", "control_joint", "construction_joint",
     "seismic_joint", "isolation_pad", "bearing_pad"])]

/-- `VisionService._get_symbol_library` (defaults to the empty dict). -/
def get_symbol_library (trade_type : String) : SymbolLibrary :=
  if trade_type = "electrical" then ELECTRICAL_SYMBOLS
  else if trade_type = "plumbing" then PLUMBING_SYMBOLS
  else if trade_type = "hvac" then HVAC_SYMBOLS
  else if trade_type = "structural" then STRUCTURAL_SYMBOLS
  else []

/-! ## Mock vision response (`VisionService._mock_vision_response`) -/

/-- The `base_response` literal of `_mock_vision_response`. -/
def mock_base_response : VisionResult :=
  { rooms :=
      [{ name := "Living Room", dimensions := "15\x27 x 20\x27", area := 300,
         room_type := some "Living" },
       { name := "Bedroom", dimensions := "12\x27 x 14\x27", area := 168,
         room_type := some "Bedroom" },
       { name := "Kitchen", dimensions := "10\x27 x 12\x27", area := 120,
         room_type := some "Kitchen" }],
    openings :=
      [{ opening_type := "Door", count := 3, size := "36\" x 80\"",
         details := some "Standard interior doors" },
       { opening_type := "Window", count := 5, size := "48\" x 60\"",
         details := some "Double-hung windows" }],
    fixtures := [],
    measurements :=
      [{ measurement_type := "Wall Length", value := 120, unit := "feet",
         location := some "Perimeter" },
       { measurement_type := "Ceiling Height", value := 9, unit := "feet",
         location := some "All rooms" }],
    materials :=
      [{ material_name := "Drywall", quantity := 588, unit := "sq ft",
         specifications := some "1/2 inch standard drywall" },
       { material_name := "Flooring", quantity := 588, unit := "sq ft",
         specifications := some "Hardwood or equivalent" }],
    confidence_score := (85 : ℚ) / 100,
    scale_info := some
      { scale_string := "1/4\" = 1\x27-0\"",
        detected_pattern := "1/4\" = 1\x27-0\"",
        confidence := (9 : ℚ) / 10 },
    trade_type := none }

/-- `VisionService._mock_vision_response`. -/
def mock_vision_response (trade_type : String) : VisionResult :=
  let base := mock_base_response
  if trade_type = "electrical" then
    { base with
      fixtures :=
        [{ fixture_type := "Duplex Outlet", category := "electrical", count := 15,
           details := some "120V standard outlets" },
         { fixture_type := "Light Fixture", category := "electrical", count := 8,
           details := some "Ceiling-mounted fixtures" },
         { fixture_type := "Switch", category := "electrical", count := 6,
           details := some "Single-pole switches" }],
      trade_type := some "electrical" }
  else if trade_type = "plumbing" then
    { base with
      fixtures :=
        [{ fixture_type := "Toilet", category := "plumbing", count := 2,
           details := some "Standard water closets" },
         { fixture_type := "Sink", category := "plumbing", count := 3,
           details := some "Lavatory and kitchen sinks" },
         { fixture_type := "Shower", category := "plumbing", count := 1,
           details := some "Standard shower stall" }],
      trade_type := some "plumbing" }
  else if trade_type = "hvac" then
    { base with
      fixtures :=
        [{ fixture_type := "Supply Diffuser", category := "hvac", count := 6,
           details := some "Ceiling diffusers" },
         { fixture_type := "Return Grille", category := "hvac", count := 2,
           details := some "Return air grilles" },
         { fixture_type := "Thermostat", category := "hvac", count := 1,
           details := some "Programmable thermostat" }],
      trade_type := some "hvac" }
  else if trade_type = "structural" then
    { base with
      fixtures := [],
      measurements := base.measurements ++
        [{ measurement_type := "Beam Span", value := 20, unit := "feet",
           location := some "Main beam" },
         { measurement_type := "Joist Spacing", value := 16, unit := "inches",
           location := some "Floor joists" }],
      trade_type := some "structural" }
  else
    { base with
      fixtures :=
        [{ fixture_type := "Ceiling Light", category := "electrical", count := 6,
           details := some "Standard ceiling fixtures" },
         { fixture_type := "Outlet", category := "electrical", count := 15,
           details := some "Standard 120V outlets" }] }

/-! ## Vision model call (`VisionService._call_vision_model`)

The outbound HTTP call and `json.loads` are external effects; they enter
the embedding as parameters (`model_call` : the content string the
provider produced, or the exception it raised; `loads` : the JSON
parser applied to the extracted content).  Everything around them —
detection, context mutation, markdown stripping, metadata enrichment,
the mock fallback and the `try`/`except` routing — is embedded from the
source. -/

/-- Markdown code-block stripping applied to the model content before
`json.loads` (lines 306–315 of `vision_service.py`). -/
def extract_json_content (content : String) : String :=
  if strContains content "```json" then
    let parts := content.splitOn "```json"
    if 1 < parts.length then
      let json_parts := (parts.getD 1 "").splitOn "```"
      if 0 < json_parts.length then (json_parts.getD 0 "").trim else content
    else content
  else if strContains content "```" then
    let parts := content.splitOn "```"
    if 2 < parts.length then (parts.getD 1 "").trim else content
  else content

/-- The context-enrichment writes of `_call_vision_model`
(lines 248–254): `scale_info`, and for a specialized trade also
`trade_type` and `symbol_library`, are written into the dict. -/
def enhanceCtx (scale : Option ScaleInfo) (trade_type : String) (c : Ctx) : Ctx :=
  let c := match scale with
    | some s => { c with scale_info := some s }
    | none => c
  if trade_type ≠ "general" then
    { c with trade_type := some trade_type,
             symbol_library := some (get_symbol_library trade_type) }
  else c

/-- Metadata added to a successfully parsed result (lines 319–323). -/
def addMetadata (scale : Option ScaleInfo) (trade_type : String)
    (r : VisionResult) : VisionResult :=
  let r := match scale with
    | some s => { r with scale_info := some s }
    | none => r
  if trade_type ≠ "general" then { r with trade_type := some trade_type } else r

/-- The `try` block of `_call_vision_model` after context enrichment:
mock short-circuit without an API key, otherwise provider call,
markdown stripping, `json.loads`, metadata enrichment. -/
def visionTryBody (loads : String → Except PyExc VisionResult)
    (model_call : Except PyExc String) (has_api_key : Bool)
    (scale : Option ScaleInfo) (trade_type : String) :
    Except PyExc VisionResult :=
  if ¬ has_api_key then .ok (mock_vision_response trade_type)
  else
    match model_call with
    | .error e => .error e
    | .ok content =>
      match loads (extract_json_content content) with
      | .error e => .error e
      | .ok r => .ok (addMetadata scale trade_type r)

/-- `VisionService._call_vision_model` (single attempt, the retry
decorator aside).  Returns the result together with the caller-visible
context object's post-call state: `enhanced_context = context or \x7b\x7d`
aliases the caller's dict exactly when that dict is truthy, so only
then do the enrichment writes escape. -/
def call_vision_model (loads : String → Except PyExc VisionResult)
    (model_call : Except PyExc String) (has_api_key : Bool)
    (ocr_text : String) (context : Option Ctx) :
    Except PyExc VisionResult × Option Ctx :=
  let scale_info := detect_scale ocr_text
  let trade_type := detect_trade_type ocr_text context
  let context2 :=
    match context with
    | some c => if c.isTruthy then some (enhanceCtx scale_info trade_type c) else context
    | none => none
  let result :=
    match visionTryBody loads model_call has_api_key scale_info trade_type with
    | .error .jsonDecodeError => .ok (mock_vision_response trade_type)
    | other => other
  (result, context2)

/-- The field copy a successful `BlueprintAnalysis.model_validate`
performs. -/
def toAnalysis (r : VisionResult) : BlueprintAnalysis :=
  { rooms := r.rooms, openings := r.openings, fixtures := r.fixtures,
    measurements := r.measurements, materials := r.materials,
    confidence_score := r.confidence_score,
    scale_info := r.scale_info, trade_type := r.trade_type }

/-- `BlueprintAnalysis.model_validate`: pydantic bound check on
`confidence_score` (`ge=0, le=1`). -/
def model_validate (r : VisionResult) : Except PyExc BlueprintAnalysis :=
  if 0 ≤ r.confidence_score ∧ r.confidence_score ≤ 1 then .ok (toAnalysis r)
  else .error .validationError

/-- `VisionService.analyze_blueprint`: model call, pydantic validation,
failure wrapping (`Exception(f"Blueprint analysis failed: ...")`). -/
def analyze_blueprint (loads : String → Except PyExc VisionResult)
    (model_call : Except PyExc String) (has_api_key : Bool)
    (ocr_text : String) (context : Option Ctx) :
    Except PyExc BlueprintAnalysis × Option Ctx :=
  match call_vision_model loads model_call has_api_key ocr_text context with
  | (.error e, c2) => (.error (.analysisFailed e), c2)
  | (.ok r, c2) =>
    match model_validate r with
    | .ok a => (.ok a, c2)
    | .error e => (.error (.analysisFailed e), c2)

/-! ## Multi-page aggregation (`VisionService.analyze_multi_page_blueprint`) -/

/-- One input page: its OCR text together with the outcome the external
vision provider produces for it (the image bytes only feed that call). -/
structure PageInput where
  ocr_text : String
  model_call : Except PyExc String
deriving Repr

/-- The running aggregation state of the page loop (the
`aggregated_*` lists, `total_confidence`, and the first-page
`scale_info` / `trade_type` capture). -/
structure AggState where
  rooms : List Room := []
  openings : List Opening := []
  fixtures : List Fixture := []
  measurements : List Measurement := []
  materials : List Material := []
  total_confidence : ℚ := 0
  scale_info : Option ScaleInfo := none
  trade_type : Option String := none
deriving DecidableEq, Repr

/-- One loop iteration's aggregation writes (lines 594–605). -/
def aggExtend (agg : AggState) (a : BlueprintAnalysis) (page_idx : Nat) : AggState :=
  { rooms := agg.rooms ++ a.rooms,
    openings := agg.openings ++ a.openings,
    fixtures := agg.fixtures ++ a.fixtures,
    measurements := agg.measurements ++ a.measurements,
    materials := agg.materials ++ a.materials,
    total_confidence := agg.total_confidence + a.confidence_score,
    scale_info := if page_idx = 1 then a.scale_info else agg.scale_info,
    trade_type := if page_idx = 1 then a.trade_type else agg.trade_type }

/-- `page_context = context or \x7b\x7d` aliases the caller's dict
exactly when that dict is truthy (an empty caller dict, like a missing
one, yields a fresh dict each iteration whose writes are discarded). -/
def ctxSharedOf (ctx : Option Ctx) : Bool :=
  match ctx with | some c => c.isTruthy | none => false

/-- The page context handed to `analyze_blueprint`: the caller's dict
(or a fresh one) with `page_number` / `total_pages` written into it. -/
def pageCtxOf (ctx : Option Ctx) (idx total : Nat) : Ctx :=
  let base : Ctx := match ctx with
    | some c => if c.isTruthy then c else {}
    | none => {}
  { base with page_number := some idx, total_pages := some total }

/-- The page loop of `analyze_multi_page_blueprint`.  `ctx` threads the
caller's context object state.  `res` and `trs` are ghost
instrumentation: the per-page analyses and the per-page detected
trades, in page order. -/
def multiPageLoop (loads : String → Except PyExc VisionResult)
    (has_api_key : Bool) (total : Nat) :
    List PageInput → Nat → Option Ctx → AggState →
    List BlueprintAnalysis → List String →
    Except PyExc AggState × Option Ctx × List BlueprintAnalysis × List String
  | [], _, ctx, agg, res, trs => (.ok agg, ctx, res, trs)
  | p :: rest, idx, ctx, agg, res, trs =>
    let page_ctx := pageCtxOf ctx idx total
    let trade := detect_trade_type p.ocr_text (some page_ctx)
    match analyze_blueprint loads p.model_call has_api_key p.ocr_text (some page_ctx) with
    | (.error e, c2) =>
      (.error e, if ctxSharedOf ctx then c2 else ctx, res, trs ++ [trade])
    | (.ok a, c2) =>
      multiPageLoop loads has_api_key total rest (idx + 1)
        (if ctxSharedOf ctx then c2 else ctx) (aggExtend agg a idx)
        (res ++ [a]) (trs ++ [trade])

/-- The observable outcome of a multi-page run: the returned (or
raised) result, the caller's context object state after the call, and
the ghost per-page records. -/
structure MultiPageRun where
  result : Except PyExc BlueprintAnalysis
  ctx_out : Option Ctx
  page_results : List BlueprintAnalysis
  page_trades : List String
deriving Repr

/-- `VisionService.analyze_multi_page_blueprint`: run the page loop,
average the confidence (guarded against zero pages), build the
aggregated `BlueprintAnalysis` (pydantic-validated on construction),
wrap any failure. -/
def analyze_multi_page_run (loads : String → Except PyExc VisionResult)
    (has_api_key : Bool) (pages : List PageInput) (context : Option Ctx) :
    MultiPageRun :=
  match multiPageLoop loads has_api_key pages.length pages 1 context {} [] [] with
  | (.error e, c2, res, trs) => ⟨.error (.multiPageFailed e), c2, res, trs⟩
  | (.ok agg, c2, res, trs) =>
    let avg_confidence : ℚ :=
      if pages.length ≠ 0 then agg.total_confidence / pages.length else 0
    let candidate : VisionResult :=
      { rooms := agg.rooms, openings := agg.openings, fixtures := agg.fixtures,
        measurements := agg.measurements, materials := agg.materials,
        confidence_score := avg_confidence,
        scale_info := agg.scale_info, trade_type := agg.trade_type }
    match model_validate candidate with
    | .ok a => ⟨.ok a, c2, res, trs⟩
    | .error e => ⟨.error (.multiPageFailed e), c2, res, trs⟩

/-- The value `analyze_multi_page_blueprint` returns (or the exception
it raises). -/
def analyze_multi_page_blueprint (loads : String → Except PyExc VisionResult)
    (has_api_key : Bool) (pages : List PageInput) (context : Option Ctx) :
    Except PyExc BlueprintAnalysis :=
  (analyze_multi_page_run loads has_api_key pages context).result

/-! ## Bid arithmetic

`app/services/bid_service.py` is imported by `app/api/routes.py` but is
not among the sources; the bid arithmetic is therefore modelled from
the spec (§3 invariants, §4.5). -/

/-- `LineItem` (pydantic, `app/models/responses.py`). -/
structure LineItem where
  description : String
  quantity : ℚ
  unit : String
  unit_cost : ℚ
  total : ℚ
deriving DecidableEq, Repr

/-- The numeric core of a generated bid package. -/
structure BidPackage where
  line_items : List LineItem
  subtotal : ℚ
  markup_percentage : ℚ
  markup_amount : ℚ
  total_price : ℚ
deriving DecidableEq, Repr

/-- Modelled from the spec: `BidService.generate_bid`
(`app/services/bid_service.py` is absent from the sources; only its
caller `generate_bid` in `app/api/routes.py` is present).  Per the spec:
the subtotal equals the sum of the constituent line items' totals,
`markup_amount = subtotal × markup_percentage/100`, and
`total_price = subtotal + markup_amount`. -/
def generate_bid (line_items : List LineItem) (markup_percentage : ℚ) :
    BidPackage :=
  let subtotal := (line_items.map (fun li => li.total)).sum
  let markup_amount := subtotal * markup_percentage / 100
  { line_items := line_items,
    subtotal := subtotal,
    markup_percentage := markup_percentage,
    markup_amount := markup_amount,
    total_price := subtotal + markup_amount }

/-! ## Helper lemmas: Python `max(dict, key=dict.get)` vs `find?` -/

lemma le_foldl_max (l : List ℕ) (b : ℕ) : b ≤ l.foldl Nat.max b := by
  induction l generalizing b with
  | nil => exact Nat.le_refl b
  | cons x t ih =>
    exact Nat.le_trans (Nat.le_max_left b x) (ih (Nat.max b x))

lemma argmaxGo_of_max_eq (l : List (String × ℕ)) (bk : String) (bv : ℕ)
    (h : (l.map (fun p => p.2)).foldl Nat.max bv = bv) : argmaxGo bk bv l = bk := by
  induction l generalizing bk bv with
  | nil => rfl
  | cons x t ih =>
    obtain ⟨k, v⟩ := x
    simp only [List.map_cons, List.foldl_cons] at h
    have hvle : Nat.max bv v ≤ bv := by
      have h2 := le_foldl_max (t.map (fun p => p.2)) (Nat.max bv v)
      rw [h] at h2
      exact h2
    have hv : v ≤ bv := Nat.le_trans (Nat.le_max_right bv v) hvle
    have hmax : Nat.max bv v = bv := Nat.max_eq_left hv
    rw [hmax] at h
    simp only [argmaxGo, if_neg (Nat.not_lt.mpr hv)]
    exact ih bk bv h

lemma find?_max_eq_argmaxGo (l : List (String × ℕ)) (bk : String) (bv : ℕ) :
    ((bk, bv) :: l).find?
        (fun p => p.2 == (l.map (fun p => p.2)).foldl Nat.max bv)
      = some (argmaxGo bk bv l, (l.map (fun p => p.2)).foldl Nat.max bv) := by
  induction l generalizing bk bv with
  | nil => simp [List.find?, argmaxGo]
  | cons x t ih =>
    obtain ⟨k, v⟩ := x
    by_cases hlt : bv < v
    · have hmax : Nat.max bv v = v := Nat.max_eq_right (Nat.le_of_lt hlt)
      simp only [List.map_cons, List.foldl_cons, hmax]
      have hbvM : bv < (t.map (fun p => p.2)).foldl Nat.max v :=
        Nat.lt_of_lt_of_le hlt (le_foldl_max _ v)
      rw [List.find?_cons_of_neg _ (by simpa using Nat.ne_of_lt hbvM)]
      simp only [argmaxGo, if_pos hlt]
      exact ih k v
    · have hv : v ≤ bv := Nat.not_lt.mp hlt
      have hmax : Nat.max bv v = bv := Nat.max_eq_left hv
      simp only [List.map_cons, List.foldl_cons, hmax]
      by_cases hbM : bv = (t.map (fun p => p.2)).foldl Nat.max bv
      · rw [List.find?_cons_of_pos _ (by simpa using hbM)]
        simp only [argmaxGo, if_neg hlt]
        rw [argmaxGo_of_max_eq t bk bv hbM.symm, ← hbM]
      · have hbvM : bv < (t.map (fun p => p.2)).foldl Nat.max bv :=
          Nat.lt_of_le_of_ne (le_foldl_max _ bv) hbM
        have hvM : v < (t.map (fun p => p.2)).foldl Nat.max bv :=
          Nat.lt_of_le_of_lt hv hbvM
        rw [List.find?_cons_of_neg _ (by simpa using hbM),
            List.find?_cons_of_neg _ (by simpa using Nat.ne_of_lt hvM)]
        have := ih bk bv
        rw [List.find?_cons_of_neg _ (by simpa using hbM)] at this
        rw [this]
        simp only [argmaxGo, if_neg hlt]

lemma maxValue_cons (k : String) (v : ℕ) (l : List (String × ℕ)) :
    maxValue ((k, v) :: l) = (l.map (fun p => p.2)).foldl Nat.max v := by
  simp [maxValue, Nat.zero_max]

lemma find?_max_eq_argmaxFirst (k : String) (v : ℕ) (l : List (String × ℕ)) :
    ((k, v) :: l).find? (fun p => p.2 == maxValue ((k, v) :: l))
      = some (argmaxFirst ((k, v) :: l), maxValue ((k, v) :: l)) := by
  rw [maxValue_cons]
  exact find?_max_eq_argmaxGo l k v

/-- C1: for every extracted text and every context lacking a valid trade
override, the classifier counts keyword hits per trade over the
lower-cased text; if the maximal count is ≥ 2 it returns the first trade
(in the enumeration order electrical, plumbing, hvac, structural of
`keyword_counts`) attaining it, otherwise `"general"`. -/
theorem trade_classifier_keyword_rule (t : String) (ctx : Option Ctx)
    (h : ctxOverride ctx = none) :
    detect_trade_type t ctx =
      (if 2 ≤ maxValue (keyword_counts (strToLower t)) then
        (((keyword_counts (strToLower t)).find?
            (fun p => p.2 == maxValue (keyword_counts (strToLower t)))).map
          (fun p => p.1)).getD "general"
      else "general") := by
  have hlower : (if t = "" then "" else strToLower t) = strToLower t := by
    by_cases ht : t = ""
    · rw [ht, if_pos rfl]; rfl
    · rw [if_neg ht]
  show (match ctxOverride ctx with
    | some tr => tr
    | none =>
      let ocr_lower := if t = "" then "" else strToLower t
      let counts := keyword_counts ocr_lower
      let max_count := maxValue counts
      if 2 ≤ max_count then argmaxFirst counts else "general") = _
  rw [h]
  simp only [hlower]
  rw [show keyword_counts (strToLower t) =
        ("electrical", countHits electrical_keywords (strToLower t)) ::
        [("plumbing", countHits plumbing_keywords (strToLower t)),
         ("hvac", countHits hvac_keywords (strToLower t)),
         ("structural", countHits structural_keywords (strToLower t))] from rfl,
      find?_max_eq_argmaxFirst]
  by_cases h2 : 2 ≤ maxValue (("electrical", countHits electrical_keywords (strToLower t)) ::
        [("plumbing", countHits plumbing_keywords (strToLower t)),
         ("hvac", countHits hvac_keywords (strToLower t)),
         ("structural", countHits structural_keywords (strToLower t))])
  · rw [if_pos h2, if_pos h2]; rfl
  · rw [if_neg h2, if_neg h2]

/-- Witness for C1 at the spec's own example text (three electrical
hits): classification returns `"electrical"`. -/
theorem trade_classifier_keyword_rule_witness :
    detect_trade_type "electrical panel, lighting and outlet" none = "electrical" := by
  rw [trade_classifier_keyword_rule "electrical panel, lighting and outlet" none rfl]
  decide

/-- Core of the override rule, shared with the context-sharing
development. -/
lemma trade_override_core (t : String) (c : Ctx) (v : String)
    (hv : c.trade_type = some v) :
    (strToLower v ∈ TRADE_TYPES →
      detect_trade_type t (some c) = strToLower v)
    ∧ (strToLower v ∉ TRADE_TYPES →
      detect_trade_type t (some c) = detect_trade_type t none) := by
  have htruthy : c.isTruthy = true := by
    simp [Ctx.isTruthy, hv]
  constructor
  · intro hin
    simp [detect_trade_type, ctxOverride, htruthy, hv, hin]
  · intro hout
    simp [detect_trade_type, ctxOverride, htruthy, hv, hout]

/-- C2: a context-supplied `trade_type` whose lower-casing lies in the
closed enum is returned immediately (in lower-cased form); a value
outside the enum is ignored and classification falls through to the
keyword count over the text. -/
theorem trade_override_rule (t : String) (c : Ctx) (v : String)
    (hv : c.trade_type = some v) :
    (strToLower v ∈ TRADE_TYPES →
      detect_trade_type t (some c) = strToLower v)
    ∧ (strToLower v ∉ TRADE_TYPES →
      detect_trade_type t (some c) = detect_trade_type t none) :=
  trade_override_core t c v hv

/-- Witness for C2: the override `"HVAC"` (valid after lower-casing)
wins over a plumbing-keyword text, while the override `"elevator"`
falls through to keyword detection. -/
theorem trade_override_rule_witness :
    detect_trade_type "plumbing water drain" (some { trade_type := some "HVAC" }) = "hvac"
    ∧ detect_trade_type "plumbing water drain" (some { trade_type := some "elevator" })
        = detect_trade_type "plumbing water drain" none := by
  constructor
  · exact (trade_override_rule "plumbing water drain"
      { trade_type := some "HVAC" } "HVAC" rfl).1 (by decide)
  · exact (trade_override_rule "plumbing water drain"
      { trade_type := some "elevator" } "elevator" rfl).2 (by decide)

/-! ## Scale detector theorems -/

lemma detect_scale_go_eq_none (ps : List (String × List RE)) (t : String) :
    detect_scale_go ps t = none ↔ ∀ p ∈ ps, reSearch p.2 t = none := by
  induction ps with
  | nil => simp [detect_scale_go]
  | cons p ps ih =>
    obtain ⟨src, re⟩ := p
    simp only [detect_scale_go]
    cases hre : reSearch re t with
    | some m => simp [hre]
    | none => simpa [hre] using ih

lemma detect_scale_go_eq_some (ps : List (String × List RE)) (t : String)
    (si : ScaleInfo) (h : detect_scale_go ps t = some si) :
    si.confidence = (9 : ℚ) / 10
    ∧ ∃ re, ps.find? (fun q => (reSearch q.2 t).isSome) = some (si.detected_pattern, re)
        ∧ reSearch re t = some si.scale_string := by
  induction ps with
  | nil => simp [detect_scale_go] at h
  | cons p ps ih =>
    obtain ⟨src, re⟩ := p
    simp only [detect_scale_go] at h
    cases hre : reSearch re t with
    | some m =>
      rw [hre] at h
      obtain rfl : ScaleInfo.mk m src ((9 : ℚ) / 10) = si := by
        simpa using h
      refine ⟨rfl, re, ?_, hre⟩
      rw [List.find?_cons_of_pos _ (by simp [hre])]
    | none =>
      rw [hre] at h
      obtain ⟨hc, re2, hfind, hsearch⟩ := ih h
      refine ⟨hc, re2, ?_, hsearch⟩
      rw [List.find?_cons_of_neg _ (by simp [hre])]
      exact hfind

/-- C3: the scale detector returns `none` exactly when the text is
empty or no pattern matches; any returned result carries confidence
`0.9`, names the first pattern (in `SCALE_PATTERNS` list order, not
text order) that matches anywhere in the text, and carries that
pattern's leftmost match as `scale_string`. -/
theorem scale_detector_rule (t : String) :
    (detect_scale t = none ↔ (t = "" ∨ ∀ p ∈ SCALE_PATTERNS, reSearch p.2 t = none))
    ∧ (∀ si, detect_scale t = some si →
        si.confidence = (9 : ℚ) / 10
        ∧ ∃ re, SCALE_PATTERNS.find? (fun q => (reSearch q.2 t).isSome)
              = some (si.detected_pattern, re)
            ∧ reSearch re t = some si.scale_string) := by
  by_cases ht : t = ""
  · constructor
    · simp [detect_scale, ht]
    · intro si hsi
      rw [detect_scale, if_pos ht] at hsi
      exact absurd hsi (by simp)
  · constructor
    · rw [detect_scale, if_neg ht, detect_scale_go_eq_none]
      simp [ht]
    · intro si hsi
      rw [detect_scale, if_neg ht] at hsi
      exact detect_scale_go_eq_some _ _ _ hsi

/-- Witness for C3 at the ratio notation `1:100`: the detector returns
a match with confidence 0.9 produced by the `1:\d+` pattern. -/
theorem scale_detector_rule_witness :
    (ScaleInfo.mk "1:100" "1:\\d+" ((9 : ℚ) / 10)).confidence = (9 : ℚ) / 10
    ∧ ∃ re, SCALE_PATTERNS.find? (fun q => (reSearch q.2 "1:100").isSome)
          = some ((ScaleInfo.mk "1:100" "1:\\d+" ((9 : ℚ) / 10)).detected_pattern, re)
        ∧ reSearch re "1:100" = some "1:100" :=
  (scale_detector_rule "1:100").2 (ScaleInfo.mk "1:100" "1:\\d+" ((9 : ℚ) / 10)) (by
    simp only [detect_scale, detect_scale_go, SCALE_PATTERNS, reSearch, searchAux,
      eqFootTail, aposDash, List.cons_append, List.nil_append, matchSeq, starGreedy]
    rfl)

/-- C4 evaluation: the bare architectural notation `1/4" = 1'-0"` is NOT
detected (the char class `['\-]` of patterns 1–6 consumes exactly one
character, so the `'-` sequence of `1'-0"` can never fit, contradicting
the code's own pattern comments), while the same notation preceded by a
`SCALE:` label IS detected — via the `SCALE[:\s]+[\d/]+` pattern, not
the fractional-inch pattern. -/
theorem scale_quarter_inch_notation_eval :
    detect_scale "1/4\" = 1\x27-0\"" = none
    ∧ detect_scale "SCALE: 1/4\" = 1\x27-0\""
        = some (ScaleInfo.mk "SCALE: 1/4" "SCALE[:\\s]+[\\d/]+" ((9 : ℚ) / 10)) := by
  constructor
  · simp only [detect_scale, detect_scale_go, SCALE_PATTERNS, reSearch, searchAux,
      eqFootTail, aposDash, List.cons_append, List.nil_append, matchSeq, starGreedy]
    rfl
  · simp only [detect_scale, detect_scale_go, SCALE_PATTERNS, reSearch, searchAux,
      eqFootTail, aposDash, List.cons_append, List.nil_append, matchSeq, starGreedy]
    rfl

/-! ## Bid arithmetic theorem (spec-modelled) -/

/-- C7: for every generated bid package with markup percentage in
`[0, 100]`, `total_price = subtotal + markup_amount` and
`markup_amount = subtotal × markup_percentage / 100`
(`BidService.generate_bid`, modelled from the spec). -/
theorem bid_markup_invariant (line_items : List LineItem) (mp : ℚ)
    (h0 : 0 ≤ mp) (h100 : mp ≤ 100) :
    (generate_bid line_items mp).total_price
        = (generate_bid line_items mp).subtotal
          + (generate_bid line_items mp).markup_amount
    ∧ (generate_bid line_items mp).markup_amount
        = (generate_bid line_items mp).subtotal * mp / 100 := by
  exact ⟨rfl, rfl⟩

/-- Witness for C7 at the spec's example: one $100 line item with
markup 20 gives subtotal 100, markup amount 20, total price 120. -/
theorem bid_markup_invariant_witness :
    (0 : ℚ) ≤ 20 ∧ (20 : ℚ) ≤ 100
    ∧ (generate_bid [LineItem.mk "demo" 1 "ls" 100 100] 20).total_price
        = (generate_bid [LineItem.mk "demo" 1 "ls" 100 100] 20).subtotal
          + (generate_bid [LineItem.mk "demo" 1 "ls" 100 100] 20).markup_amount
    ∧ (generate_bid [LineItem.mk "demo" 1 "ls" 100 100] 20).subtotal = 100
    ∧ (generate_bid [LineItem.mk "demo" 1 "ls" 100 100] 20).markup_amount = 20
    ∧ (generate_bid [LineItem.mk "demo" 1 "ls" 100 100] 20).total_price = 120 := by
  refine ⟨by norm_num, by norm_num,
    (bid_markup_invariant [LineItem.mk "demo" 1 "ls" 100 100] 20
      (by norm_num) (by norm_num)).1, ?_, ?_, ?_⟩
  · show ([(100 : ℚ)]).sum = 100
    norm_num
  · show ([(100 : ℚ)]).sum * 20 / 100 = 20
    norm_num
  · show ([(100 : ℚ)]).sum + ([(100 : ℚ)]).sum * 20 / 100 = 120
    norm_num

/-! ## Vision-model call error routing -/

/-- C9: a model response whose content fails JSON parsing makes
`_call_vision_model` return the fixed mock response for the detected
trade type instead of propagating the failure; any exception other
than `JSONDecodeError` raised by the model call is re-raised. -/
theorem vision_json_fallback_rule (loads : String → Except PyExc VisionResult)
    (ocr : String) (ctx : Option Ctx) :
    (∀ content, loads (extract_json_content content) = .error .jsonDecodeError →
      (call_vision_model loads (.ok content) true ocr ctx).1
        = .ok (mock_vision_response (detect_trade_type ocr ctx)))
    ∧ (∀ e, e ≠ PyExc.jsonDecodeError →
      (call_vision_model loads (.error e) true ocr ctx).1 = .error e) := by
  constructor
  · intro content h
    simp [call_vision_model, visionTryBody, h]
  · intro e he
    cases e with
    | jsonDecodeError => exact absurd rfl he
    | apiError m => simp [call_vision_model, visionTryBody]
    | validationError => simp [call_vision_model, visionTryBody]
    | analysisFailed e2 => simp [call_vision_model, visionTryBody]
    | multiPageFailed e2 => simp [call_vision_model, visionTryBody]

/-- Witness for C9: with a parser that always fails, a plumbing-keyword
text yields the plumbing mock response; a provider error is re-raised
unchanged. -/
theorem vision_json_fallback_rule_witness :
    (call_vision_model (fun _ => .error .jsonDecodeError) (.ok "not json") true
        "plumbing water drain" none).1
      = .ok (mock_vision_response (detect_trade_type "plumbing water drain" none))
    ∧ (call_vision_model (fun _ => .error .jsonDecodeError)
        (.error (.apiError "boom")) true "plumbing water drain" none).1
      = .error (.apiError "boom") := by
  constructor
  · exact (vision_json_fallback_rule (fun _ => .error .jsonDecodeError)
      "plumbing water drain" none).1 "not json" rfl
  · exact (vision_json_fallback_rule (fun _ => .error .jsonDecodeError)
      "plumbing water drain" none).2 (.apiError "boom") (by intro h; cases h)

/-! ## Multi-page aggregation lemmas -/

lemma analyze_blueprint_ok_bounds (loads : String → Except PyExc VisionResult)
    (mc : Except PyExc String) (key : Bool) (ocr : String) (ctx : Option Ctx)
    (a : BlueprintAnalysis) (c2 : Option Ctx)
    (h : analyze_blueprint loads mc key ocr ctx = (.ok a, c2)) :
    0 ≤ a.confidence_score ∧ a.confidence_score ≤ 1 := by
  unfold analyze_blueprint at h
  rcases hcv : call_vision_model loads mc key ocr ctx with ⟨rr, cc⟩
  rw [hcv] at h
  cases rr with
  | error e => simp at h
  | ok r =>
    unfold model_validate at h
    dsimp only at h
    by_cases hb : 0 ≤ r.confidence_score ∧ r.confidence_score ≤ 1
    · rw [if_pos hb] at h
      dsimp only at h
      simp only [Prod.mk.injEq, Except.ok.injEq] at h
      obtain ⟨ha, -⟩ := h
      rw [← ha]
      exact hb
    · rw [if_neg hb] at h
      simp at h

lemma sum_confidence_bounds (l : List ℚ) (h : ∀ x ∈ l, 0 ≤ x ∧ x ≤ 1) :
    0 ≤ l.sum ∧ l.sum ≤ (l.length : ℚ) := by
  induction l with
  | nil => simp
  | cons x t ih =>
    obtain ⟨hx0, hx1⟩ := h x (List.mem_cons_self _ _)
    obtain ⟨ht0, ht1⟩ := ih (fun y hy => h y (List.mem_cons_of_mem _ hy))
    refine ⟨?_, ?_⟩
    · simpa using add_nonneg hx0 ht0
    · simp only [List.sum_cons, List.length_cons]
      push_cast
      linarith

lemma multiPageLoop_ok (loads : String → Except PyExc VisionResult)
    (key : Bool) (total : ℕ) :
    ∀ (rest : List PageInput) (idx : ℕ) (ctx : Option Ctx) (agg : AggState)
      (res : List BlueprintAnalysis) (trs : List String)
      (agg2 : AggState) (c2 : Option Ctx) (res2 : List BlueprintAnalysis)
      (trs2 : List String),
      1 ≤ idx →
      multiPageLoop loads key total rest idx ctx agg res trs
        = (.ok agg2, c2, res2, trs2) →
      ∃ nr nt, res2 = res ++ nr ∧ trs2 = trs ++ nt
        ∧ nr.length = rest.length ∧ nt.length = rest.length
        ∧ (∀ a ∈ nr, 0 ≤ a.confidence_score ∧ a.confidence_score ≤ 1)
        ∧ agg2.rooms = agg.rooms ++ (nr.map (fun a => a.rooms)).flatten
        ∧ agg2.openings = agg.openings ++ (nr.map (fun a => a.openings)).flatten
        ∧ agg2.fixtures = agg.fixtures ++ (nr.map (fun a => a.fixtures)).flatten
        ∧ agg2.measurements
            = agg.measurements ++ (nr.map (fun a => a.measurements)).flatten
        ∧ agg2.materials = agg.materials ++ (nr.map (fun a => a.materials)).flatten
        ∧ agg2.total_confidence
            = agg.total_confidence + (nr.map (fun a => a.confidence_score)).sum
        ∧ agg2.scale_info = (if idx = 1
            then (nr.head?.map (fun a => a.scale_info)).getD agg.scale_info
            else agg.scale_info)
        ∧ agg2.trade_type = (if idx = 1
            then (nr.head?.map (fun a => a.trade_type)).getD agg.trade_type
            else agg.trade_type) := by
  intro rest
  induction rest with
  | nil =>
    intro idx ctx agg res trs agg2 c2 res2 trs2 hidx h
    simp only [multiPageLoop, Prod.mk.injEq, Except.ok.injEq] at h
    obtain ⟨rfl, -, rfl, rfl⟩ := h
    exact ⟨[], [], by simp⟩
  | cons p rest ih =>
    intro idx ctx agg res trs agg2 c2 res2 trs2 hidx h
    simp only [multiPageLoop] at h
    rcases hab : analyze_blueprint loads p.model_call key p.ocr_text
        (some (pageCtxOf ctx idx total)) with ⟨rr, cc⟩
    rw [hab] at h
    cases rr with
    | error e => simp at h
    | ok a =>
      obtain ⟨nr, nt, h1, h2, h3, h4, h5, h6, h7, h8, h9, h10, h11, h12, h13⟩ :=
        ih (idx + 1) (if ctxSharedOf ctx then cc else ctx) (aggExtend agg a idx)
          (res ++ [a]) (trs ++ [detect_trade_type p.ocr_text (some (pageCtxOf ctx idx total))])
          agg2 c2 res2 trs2 (Nat.le_succ_of_le hidx) h
    /- the recursive index `idx + 1` is never 1 -/
      have hidx1 : ¬ (idx + 1 = 1) := by omega
      refine ⟨a :: nr,
        detect_trade_type p.ocr_text (some (pageCtxOf ctx idx total)) :: nt,
        by simpa [List.append_assoc] using h1,
        by simpa [List.append_assoc] using h2,
        by simpa using h3, by simpa using h4,
        ?_, ?_, ?_, ?_, ?_, ?_, ?_, ?_, ?_⟩
      · intro x hx
        rcases List.mem_cons.mp hx with hx | hx
        · rw [hx]
          exact analyze_blueprint_ok_bounds loads p.model_call key p.ocr_text
            (some (pageCtxOf ctx idx total)) a cc hab
        · exact h5 x hx
      · rw [h6]; simp [aggExtend, List.append_assoc]
      · rw [h7]; simp [aggExtend, List.append_assoc]
      · rw [h8]; simp [aggExtend, List.append_assoc]
      · rw [h9]; simp [aggExtend, List.append_assoc]
      · rw [h10]; simp [aggExtend, List.append_assoc]
      · rw [h11]; simp [aggExtend, add_assoc]
      · rw [h12, if_neg hidx1]
        by_cases hone : idx = 1
        · simp [aggExtend, hone]
        · simp [aggExtend, hone]
      · rw [h13, if_neg hidx1]
        by_cases hone : idx = 1
        · simp [aggExtend, hone]
        · simp [aggExtend, hone]

lemma multiPageLoop_error_length (loads : String → Except PyExc VisionResult)
    (key : Bool) (total : ℕ) :
    ∀ (rest : List PageInput) (idx : ℕ) (ctx : Option Ctx) (agg : AggState)
      (res : List BlueprintAnalysis) (trs : List String)
      (e : PyExc) (c2 : Option Ctx) (res2 : List BlueprintAnalysis)
      (trs2 : List String),
      multiPageLoop loads key total rest idx ctx agg res trs
        = (.error e, c2, res2, trs2) →
      res2.length < res.length + rest.length := by
  intro rest
  induction rest with
  | nil =>
    intro idx ctx agg res trs e c2 res2 trs2 h
    simp [multiPageLoop] at h
  | cons p rest ih =>
    intro idx ctx agg res trs e c2 res2 trs2 h
    simp only [multiPageLoop] at h
    rcases hab : analyze_blueprint loads p.model_call key p.ocr_text
        (some (pageCtxOf ctx idx total)) with ⟨rr, cc⟩
    rw [hab] at h
    cases rr with
    | error e2 =>
      simp only [Prod.mk.injEq] at h
      obtain ⟨-, -, rfl, -⟩ := h
      simp only [List.length_cons]
      omega
    | ok a =>
      have := ih (idx + 1) (if ctxSharedOf ctx then cc else ctx)
        (aggExtend agg a idx) (res ++ [a])
        (trs ++ [detect_trade_type p.ocr_text (some (pageCtxOf ctx idx total))])
        e c2 res2 trs2 h
      have hlen : (res ++ [a]).length = res.length + 1 := by simp
      rw [hlen] at this
      simp only [List.length_cons]
      omega

lemma run_of_loop_ok (loads : String → Except PyExc VisionResult) (key : Bool)
    (pages : List PageInput) (context : Option Ctx) (agg : AggState)
    (c2 : Option Ctx) (res : List BlueprintAnalysis) (trs : List String)
    (hl : multiPageLoop loads key pages.length pages 1 context {} [] []
      = (.ok agg, c2, res, trs)) :
    analyze_multi_page_run loads key pages context
      = ⟨.ok { rooms := agg.rooms, openings := agg.openings,
               fixtures := agg.fixtures, measurements := agg.measurements,
               materials := agg.materials,
               confidence_score := if pages.length ≠ 0
                 then agg.total_confidence / (pages.length : ℚ) else 0,
               scale_info := agg.scale_info, trade_type := agg.trade_type },
         c2, res, trs⟩ := by
  obtain ⟨nr, nt, hres, htrs, hnr, hnt, hbd, -, -, -, -, -, hconf, -, -⟩ :=
    multiPageLoop_ok loads key pages.length pages 1 context {} [] []
      agg c2 res trs (le_refl 1) hl
  have hsum := sum_confidence_bounds (nr.map (fun a => a.confidence_score)) (by
    intro x hx
    obtain ⟨a, ha, rfl⟩ := List.mem_map.mp hx
    exact hbd a ha)
  rw [List.length_map, hnr] at hsum
  have htc : agg.total_confidence = (nr.map (fun a => a.confidence_score)).sum := by
    rw [hconf]
    show (0 : ℚ) + _ = _
    rw [zero_add]
  have havg : 0 ≤ (if pages.length ≠ 0 then agg.total_confidence / (pages.length : ℚ) else 0)
      ∧ (if pages.length ≠ 0 then agg.total_confidence / (pages.length : ℚ) else 0) ≤ 1 := by
    by_cases hp : pages.length = 0
    · simp [hp]
    · rw [if_pos hp]
      have hlp : (0 : ℚ) < (pages.length : ℚ) := by
        exact_mod_cast Nat.pos_of_ne_zero hp
      constructor
      · exact div_nonneg (htc ▸ hsum.1) (le_of_lt hlp)
      · rw [div_le_one hlp, htc]
        exact hsum.2
  simp only [analyze_multi_page_run, hl, model_validate]
  rw [if_pos havg]
  rfl

/-- C5: whenever the multi-page aggregation returns successfully, its
aggregate lists are the concatenations of the per-page lists in page
order, its confidence is the arithmetic mean of the per-page
confidences, and all pages contributed; zero pages yield the empty
analysis with confidence 0 and no division error. -/
theorem multi_page_aggregation_rule (loads : String → Except PyExc VisionResult)
    (key : Bool) (pages : List PageInput) (context : Option Ctx) :
    (∀ a, (analyze_multi_page_run loads key pages context).result = .ok a →
      a.rooms = (((analyze_multi_page_run loads key pages context).page_results).map
          (fun x => x.rooms)).flatten
      ∧ a.openings = (((analyze_multi_page_run loads key pages context).page_results).map
          (fun x => x.openings)).flatten
      ∧ a.fixtures = (((analyze_multi_page_run loads key pages context).page_results).map
          (fun x => x.fixtures)).flatten
      ∧ a.measurements = (((analyze_multi_page_run loads key pages context).page_results).map
          (fun x => x.measurements)).flatten
      ∧ a.materials = (((analyze_multi_page_run loads key pages context).page_results).map
          (fun x => x.materials)).flatten
      ∧ a.confidence_score = (if pages.length = 0 then 0 else
          (((analyze_multi_page_run loads key pages context).page_results).map
            (fun x => x.confidence_score)).sum / (pages.length : ℚ))
      ∧ (analyze_multi_page_run loads key pages context).page_results.length
          = pages.length)
    ∧ (pages = [] → (analyze_multi_page_run loads key pages context).result
        = .ok ⟨[], [], [], [], [], 0, none, none⟩) := by
  rcases hl : multiPageLoop loads key pages.length pages 1 context {} [] []
    with ⟨rr, c2, res, trs⟩
  cases rr with
  | error e =>
    have hrun : analyze_multi_page_run loads key pages context
        = ⟨.error (.multiPageFailed e), c2, res, trs⟩ := by
      simp only [analyze_multi_page_run, hl]
    constructor
    · intro a ha
      rw [hrun] at ha
      exact absurd ha (by simp)
    · intro hp
      subst hp
      simp [multiPageLoop] at hl
  | ok agg =>
    have hrun := run_of_loop_ok loads key pages context agg c2 res trs hl
    obtain ⟨nr, nt, hres, htrs, hnr, hnt, hbd, hrooms, hopen, hfix, hmeas, hmat,
        hconf, hscale, htrade⟩ :=
      multiPageLoop_ok loads key pages.length pages 1 context {} [] []
        agg c2 res trs (le_refl 1) hl
    have hresnr : res = nr := by simpa using hres
    constructor
    · intro a ha
      rw [hrun] at ha
      simp only [Except.ok.injEq] at ha
      subst ha
      rw [hrun]
      refine ⟨?_, ?_, ?_, ?_, ?_, ?_, ?_⟩
      · show agg.rooms = _
        rw [hrooms, hresnr]
        rfl
      · show agg.openings = _
        rw [hopen, hresnr]
        rfl
      · show agg.fixtures = _
        rw [hfix, hresnr]
        rfl
      · show agg.measurements = _
        rw [hmeas, hresnr]
        rfl
      · show agg.materials = _
        rw [hmat, hresnr]
        rfl
      · show (if pages.length ≠ 0 then agg.total_confidence / (pages.length : ℚ) else 0) = _
        rw [hresnr]
        by_cases hp : pages.length = 0
        · rw [if_neg (by simpa using hp), if_pos hp]
        · rw [if_pos hp, if_neg hp, hconf]
          show (0 + _) / _ = _
          rw [zero_add]
      · show res.length = pages.length
        rw [hresnr, hnr]
    · intro hp
      subst hp
      simp only [multiPageLoop, Prod.mk.injEq, Except.ok.injEq] at hl
      obtain ⟨h1, -, h3, -⟩ := hl
      rw [hrun, ← h1, ← h3]
      simp

/-- Witness for C5: zero pages produce the empty aggregate with
confidence 0 (no division error), and all (zero) pages contributed. -/
theorem multi_page_aggregation_rule_witness :
    (analyze_multi_page_run (fun _ => .error .jsonDecodeError) false [] none).result
      = .ok ⟨[], [], [], [], [], 0, none, none⟩
    ∧ (analyze_multi_page_run (fun _ => .error .jsonDecodeError) false []
        none).page_results.length = ([] : List PageInput).length := by
  have h := multi_page_aggregation_rule (fun _ => .error .jsonDecodeError) false [] none
  have h1 := h.2 rfl
  exact ⟨h1, (h.1 ⟨[], [], [], [], [], 0, none, none⟩ h1).2.2.2.2.2.2⟩

/-- C6: a successful non-empty multi-page aggregate takes `scale_info`
and `trade_type` from the first page's analysis only. -/
theorem multi_page_first_page_metadata (loads : String → Except PyExc VisionResult)
    (key : Bool) (pages : List PageInput) (context : Option Ctx)
    (a p : BlueprintAnalysis) (rest2 : List BlueprintAnalysis)
    (ha : (analyze_multi_page_run loads key pages context).result = .ok a)
    (hres : (analyze_multi_page_run loads key pages context).page_results = p :: rest2) :
    a.scale_info = p.scale_info ∧ a.trade_type = p.trade_type := by
  rcases hl : multiPageLoop loads key pages.length pages 1 context {} [] []
    with ⟨rr, c2, res, trs⟩
  cases rr with
  | error e =>
    have hrun : analyze_multi_page_run loads key pages context
        = ⟨.error (.multiPageFailed e), c2, res, trs⟩ := by
      simp only [analyze_multi_page_run, hl]
    rw [hrun] at ha
    exact absurd ha (by simp)
  | ok agg =>
    have hrun := run_of_loop_ok loads key pages context agg c2 res trs hl
    obtain ⟨nr, nt, hres2, htrs, hnr, hnt, hbd, -, -, -, -, -, -, hscale, htrade⟩ :=
      multiPageLoop_ok loads key pages.length pages 1 context {} [] []
        agg c2 res trs (le_refl 1) hl
    have hresnr : res = nr := by simpa using hres2
    rw [hrun] at ha hres
    simp only [Except.ok.injEq] at ha
    subst ha
    have hnrp : nr = p :: rest2 := by
      rw [← hresnr]
      exact hres
    rw [hnrp] at hscale htrade
    constructor
    · show agg.scale_info = _
      rw [hscale]
      rfl
    · show agg.trade_type = _
      rw [htrade]
      rfl

/-- C8: the multi-page aggregation returns successfully exactly when
every page's analysis succeeded; a failing page aborts the whole run,
so no aggregate is ever computed from a strict subset of the pages. -/
theorem multi_page_all_or_nothing (loads : String → Except PyExc VisionResult)
    (key : Bool) (pages : List PageInput) (context : Option Ctx) :
    (∃ a, (analyze_multi_page_run loads key pages context).result = .ok a)
      ↔ (analyze_multi_page_run loads key pages context).page_results.length
          = pages.length := by
  rcases hl : multiPageLoop loads key pages.length pages 1 context {} [] []
    with ⟨rr, c2, res, trs⟩
  cases rr with
  | error e =>
    have hrun : analyze_multi_page_run loads key pages context
        = ⟨.error (.multiPageFailed e), c2, res, trs⟩ := by
      simp only [analyze_multi_page_run, hl]
    have hlen := multiPageLoop_error_length loads key pages.length pages 1
      context {} [] [] e c2 res trs hl
    rw [hrun]
    constructor
    · rintro ⟨a, ha⟩
      exact absurd ha (by simp)
    · intro h
      exfalso
      dsimp only at h
      simp only [List.length_nil] at hlen
      omega
  | ok agg =>
    have hrun := run_of_loop_ok loads key pages context agg c2 res trs hl
    obtain ⟨nr, nt, hres, htrs, hnr, -, -, -, -, -, -, -, -, -, -⟩ :=
      multiPageLoop_ok loads key pages.length pages 1 context {} [] []
        agg c2 res trs (le_refl 1) hl
    rw [hrun]
    constructor
    · intro h
      show res.length = pages.length
      rw [show res = nr from by simpa using hres, hnr]
    · intro h
      exact ⟨_, rfl⟩

/-! ## Mock-path and context evaluation lemmas -/

lemma mock_confidence_bounds (t : String) :
    0 ≤ (mock_vision_response t).confidence_score
    ∧ (mock_vision_response t).confidence_score ≤ 1 := by
  unfold mock_vision_response mock_base_response
  split_ifs <;> norm_num

lemma visionTryBody_mock (loads : String → Except PyExc VisionResult)
    (mc : Except PyExc String) (scale : Option ScaleInfo) (t : String) :
    visionTryBody loads mc false scale t = .ok (mock_vision_response t) := by
  unfold visionTryBody
  simp

lemma analyze_blueprint_mock (loads : String → Except PyExc VisionResult)
    (mc : Except PyExc String) (ocr : String) (ctx : Option Ctx) :
    analyze_blueprint loads mc false ocr ctx
      = (.ok (toAnalysis (mock_vision_response (detect_trade_type ocr ctx))),
         match ctx with
         | some c => if c.isTruthy
             then some (enhanceCtx (detect_scale ocr) (detect_trade_type ocr ctx) c)
             else ctx
         | none => none) := by
  simp only [analyze_blueprint, call_vision_model, visionTryBody_mock]
  rw [model_validate, if_pos (mock_confidence_bounds (detect_trade_type ocr ctx))]

lemma call_vision_model_snd (loads : String → Except PyExc VisionResult)
    (mc : Except PyExc String) (key : Bool) (ocr : String) (pctx : Ctx)
    (htru : pctx.isTruthy = true) :
    (call_vision_model loads mc key ocr (some pctx)).2
      = some (enhanceCtx (detect_scale ocr) (detect_trade_type ocr (some pctx)) pctx) := by
  simp [call_vision_model, htru]

lemma analyze_blueprint_snd_eq (loads : String → Except PyExc VisionResult)
    (mc : Except PyExc String) (key : Bool) (ocr : String) (ctx : Option Ctx) :
    (analyze_blueprint loads mc key ocr ctx).2
      = (call_vision_model loads mc key ocr ctx).2 := by
  rcases h : call_vision_model loads mc key ocr ctx with ⟨rr, cc⟩
  simp only [analyze_blueprint, h]
  cases rr with
  | error e => rfl
  | ok r =>
    dsimp only
    cases model_validate r <;> rfl

lemma enhanceCtx_trade (scale : Option ScaleInfo) (t : String) (c : Ctx)
    (hng : t ≠ "general") :
    (enhanceCtx scale t c).trade_type = some t
    ∧ (enhanceCtx scale t c).isTruthy = true := by
  unfold enhanceCtx
  cases scale <;> simp [hng, Ctx.isTruthy]

lemma pageCtxOf_of_truthy (c : Ctx) (htru : c.isTruthy = true) (idx total : ℕ) :
    pageCtxOf (some c) idx total
      = { c with page_number := some idx, total_pages := some total } := by
  simp [pageCtxOf, htru]

lemma pageCtxOf_isTruthy (ctx : Option Ctx) (idx total : ℕ) :
    (pageCtxOf ctx idx total).isTruthy = true := by
  unfold pageCtxOf Ctx.isTruthy
  cases ctx with
  | none => simp
  | some c => by_cases h : c.isTruthy <;> simp [h]

/-! ## Trade-classifier range lemmas -/

lemma ctxOverride_mem (ctx : Option Ctx) (t : String)
    (h : ctxOverride ctx = some t) : t ∈ TRADE_TYPES := by
  unfold ctxOverride at h
  cases ctx with
  | none => simp at h
  | some c =>
    dsimp only at h
    by_cases ht : c.isTruthy
    · rw [if_pos ht] at h
      cases hv : c.trade_type with
      | none => rw [hv] at h; simp at h
      | some v =>
        rw [hv] at h
        dsimp only at h
        by_cases hc : TRADE_TYPES.contains (strToLower v)
        · rw [if_pos hc] at h
          obtain rfl : strToLower v = t := by simpa using h
          simpa using hc
        · rw [if_neg hc] at h
          simp at h
    · rw [if_neg ht] at h
      simp at h

lemma argmaxGo_mem (l : List (String × ℕ)) (bk : String) (bv : ℕ) :
    argmaxGo bk bv l = bk ∨ argmaxGo bk bv l ∈ l.map (fun p => p.1) := by
  induction l generalizing bk bv with
  | nil => left; rfl
  | cons x t ih =>
    obtain ⟨k, v⟩ := x
    simp only [argmaxGo]
    by_cases h : bv < v
    · rw [if_pos h]
      rcases ih k v with h2 | h2
    /- incumbent replaced by the head key -/
      · right; rw [h2]; simp
      · right; simp only [List.map_cons, List.mem_cons]; right; exact h2
    · rw [if_neg h]
      rcases ih bk bv with h2 | h2
      · left; exact h2
      · right; simp only [List.map_cons, List.mem_cons]; right; exact h2

lemma detect_trade_type_mem (ocr : String) (ctx : Option Ctx) :
    detect_trade_type ocr ctx ∈ TRADE_TYPES := by
  unfold detect_trade_type
  cases ho : ctxOverride ctx with
  | some t => exact ctxOverride_mem ctx t ho
  | none =>
    dsimp only
    generalize (if ocr = "" then "" else strToLower ocr) = ol
    by_cases h2 : 2 ≤ maxValue (keyword_counts ol)
    · rw [if_pos h2]
      have heq : argmaxFirst (keyword_counts ol)
          = argmaxGo "electrical" (countHits electrical_keywords ol)
            [("plumbing", countHits plumbing_keywords ol),
             ("hvac", countHits hvac_keywords ol),
             ("structural", countHits structural_keywords ol)] := rfl
      rw [heq]
      rcases argmaxGo_mem
          [("plumbing", countHits plumbing_keywords ol),
           ("hvac", countHits hvac_keywords ol),
           ("structural", countHits structural_keywords ol)]
          "electrical" (countHits electrical_keywords ol) with h | h
      · rw [h]; simp [TRADE_TYPES]
      · simp only [List.map_cons, List.map_nil, List.mem_cons, List.mem_singleton] at h
        simp only [TRADE_TYPES, List.mem_cons, List.mem_singleton]
        tauto
    · rw [if_neg h2]
      simp [TRADE_TYPES]

lemma trade_types_lower_fixed (t : String) (h : t ∈ TRADE_TYPES) :
    strToLower t = t := by
  simp only [TRADE_TYPES, List.mem_cons, List.mem_singleton] at h
  rcases h with rfl | rfl | rfl | rfl | rfl | h
  · decide
  · decide
  · decide
  · decide
  · decide
  · simp at h

lemma detect_trade_of_override (ocr : String) (c : Ctx) (t : String)
    (hct : c.trade_type = some t) (hmem : t ∈ TRADE_TYPES) :
    detect_trade_type ocr (some c) = t := by
  have hlow : strToLower t = t := trade_types_lower_fixed t hmem
  have h := (trade_override_core ocr c t hct).1 (by rw [hlow]; exact hmem)
  rw [hlow] at h
  exact h

/-! ## Context sharing across a multi-page run -/

lemma run_page_trades_eq (loads : String → Except PyExc VisionResult)
    (key : Bool) (pages : List PageInput) (ctx : Option Ctx) :
    (analyze_multi_page_run loads key pages ctx).page_trades
      = (multiPageLoop loads key pages.length pages 1 ctx {} [] []).2.2.2 := by
  rcases hl : multiPageLoop loads key pages.length pages 1 ctx {} [] []
    with ⟨rr, c2, res, trs⟩
  simp only [analyze_multi_page_run, hl]
  cases rr with
  | error e => rfl
  | ok agg =>
    dsimp only
    split <;> rfl

lemma run_ctx_out_eq (loads : String → Except PyExc VisionResult)
    (key : Bool) (pages : List PageInput) (ctx : Option Ctx) :
    (analyze_multi_page_run loads key pages ctx).ctx_out
      = (multiPageLoop loads key pages.length pages 1 ctx {} [] []).2.1 := by
  rcases hl : multiPageLoop loads key pages.length pages 1 ctx {} [] []
    with ⟨rr, c2, res, trs⟩
  simp only [analyze_multi_page_run, hl]
  cases rr with
  | error e => rfl
  | ok agg =>
    dsimp only
    split <;> rfl

lemma multiPageLoop_trades_prefix (loads : String → Except PyExc VisionResult)
    (key : Bool) (total : ℕ) :
    ∀ (rest : List PageInput) (idx : ℕ) (ctx : Option Ctx) (agg : AggState)
      (res : List BlueprintAnalysis) (trs : List String)
      (r : Except PyExc AggState) (c2 : Option Ctx)
      (res2 : List BlueprintAnalysis) (trs2 : List String),
      multiPageLoop loads key total rest idx ctx agg res trs = (r, c2, res2, trs2) →
      ∃ nt, trs2 = trs ++ nt := by
  intro rest
  induction rest with
  | nil =>
    intro idx ctx agg res trs r c2 res2 trs2 h
    simp only [multiPageLoop, Prod.mk.injEq] at h
    obtain ⟨-, -, -, rfl⟩ := h
    exact ⟨[], by simp⟩
  | cons p rest ih =>
    intro idx ctx agg res trs r c2 res2 trs2 h
    simp only [multiPageLoop] at h
    rcases hab : analyze_blueprint loads p.model_call key p.ocr_text
        (some (pageCtxOf ctx idx total)) with ⟨rr, cc⟩
    rw [hab] at h
    cases rr with
    | error e =>
      simp only [Prod.mk.injEq] at h
      obtain ⟨-, -, -, rfl⟩ := h
      exact ⟨[detect_trade_type p.ocr_text (some (pageCtxOf ctx idx total))], rfl⟩
    | ok a =>
      obtain ⟨nt, hnt⟩ := ih (idx + 1) (if ctxSharedOf ctx then cc else ctx)
        (aggExtend agg a idx) (res ++ [a])
        (trs ++ [detect_trade_type p.ocr_text (some (pageCtxOf ctx idx total))])
        r c2 res2 trs2 h
      exact ⟨detect_trade_type p.ocr_text (some (pageCtxOf ctx idx total)) :: nt,
        by simpa [List.append_assoc] using hnt⟩

/-- Invariant: once the (shared, truthy) context carries a valid
non-general trade override `t`, every later page's detected trade is
`t` and the context keeps `trade_type = t` to the end of the run,
successful or not. -/
lemma multiPageLoop_override_invariant (loads : String → Except PyExc VisionResult)
    (key : Bool) (total : ℕ) (t : String) (hmem : t ∈ TRADE_TYPES)
    (hng : t ≠ "general") :
    ∀ (rest : List PageInput) (idx : ℕ) (c : Ctx) (agg : AggState)
      (res : List BlueprintAnalysis) (trs : List String)
      (r : Except PyExc AggState) (c2 : Option Ctx)
      (res2 : List BlueprintAnalysis) (trs2 : List String),
      c.isTruthy = true → c.trade_type = some t →
      multiPageLoop loads key total rest idx (some c) agg res trs
        = (r, c2, res2, trs2) →
      (∃ nt, trs2 = trs ++ nt ∧ ∀ x ∈ nt, x = t)
      ∧ ∃ c3, c2 = some c3 ∧ c3.trade_type = some t := by
  intro rest
  induction rest with
  | nil =>
    intro idx c agg res trs r c2 res2 trs2 htru hct h
    simp only [multiPageLoop, Prod.mk.injEq] at h
    obtain ⟨-, rfl, -, rfl⟩ := h
    exact ⟨⟨[], by simp, by simp⟩, c, rfl, hct⟩
  | cons p rest ih =>
    intro idx c agg res trs r c2 res2 trs2 htru hct h
    simp only [multiPageLoop] at h
    have hpct : pageCtxOf (some c) idx total
        = { c with page_number := some idx, total_pages := some total } :=
      pageCtxOf_of_truthy c htru idx total
    have hdet : detect_trade_type p.ocr_text (some (pageCtxOf (some c) idx total)) = t := by
      rw [hpct]
      exact detect_trade_of_override p.ocr_text _ t hct hmem
    have hshared : ctxSharedOf (some c) = true := by
      simp [ctxSharedOf, htru]
    rcases hab : analyze_blueprint loads p.model_call key p.ocr_text
        (some (pageCtxOf (some c) idx total)) with ⟨rr, cc⟩
    rw [hab] at h
    have hcc : cc = some (enhanceCtx (detect_scale p.ocr_text) t
        (pageCtxOf (some c) idx total)) := by
      have h2 : (analyze_blueprint loads p.model_call key p.ocr_text
          (some (pageCtxOf (some c) idx total))).2 = cc := by rw [hab]
      rw [analyze_blueprint_snd_eq, call_vision_model_snd loads p.model_call key
          p.ocr_text (pageCtxOf (some c) idx total)
          (pageCtxOf_isTruthy (some c) idx total), hdet] at h2
      exact h2.symm
    obtain ⟨henh_t, henh_truthy⟩ :=
      enhanceCtx_trade (detect_scale p.ocr_text) t (pageCtxOf (some c) idx total) hng
    cases rr with
    | error e =>
      simp only [Prod.mk.injEq] at h
      obtain ⟨-, hc2, -, htrs2⟩ := h
      rw [hshared] at hc2
      simp only [if_true] at hc2
      constructor
      · refine ⟨[detect_trade_type p.ocr_text (some (pageCtxOf (some c) idx total))],
          htrs2.symm, ?_⟩
        intro x hx
        rw [List.mem_singleton] at hx
        rw [hx, hdet]
      · refine ⟨enhanceCtx (detect_scale p.ocr_text) t (pageCtxOf (some c) idx total),
          ?_, henh_t⟩
        rw [← hc2, hcc]
    | ok a =>
      rw [hshared] at h
      simp only [if_true] at h
      rw [hcc] at h
      obtain ⟨⟨nt, hnt, hall⟩, c3, hc3, hc3t⟩ :=
        ih (idx + 1) (enhanceCtx (detect_scale p.ocr_text) t (pageCtxOf (some c) idx total))
          (aggExtend agg a idx) (res ++ [a])
          (trs ++ [detect_trade_type p.ocr_text (some (pageCtxOf (some c) idx total))])
          r c2 res2 trs2 henh_truthy henh_t h
      constructor
      · refine ⟨detect_trade_type p.ocr_text (some (pageCtxOf (some c) idx total)) :: nt,
          by simpa [List.append_assoc] using hnt, ?_⟩
        intro x hx
        rcases List.mem_cons.mp hx with hx | hx
        · rw [hx, hdet]
        · exact hall x hx
      · exact ⟨c3, hc3, hc3t⟩

/-- C10 (amended): multi-page analysis does not copy a TRUTHY
(non-empty) caller-supplied context: every page shares the caller's
dict, into which the model call writes the detected metadata; so when
the first page's detected trade `t` is non-general, every later page's
classification returns `t` through the now-present override, and the
caller's dict still carries `trade_type = t` after the call returns. -/
theorem context_sharing_rule (loads : String → Except PyExc VisionResult)
    (key : Bool) (pages : List PageInput) (c : Ctx) (t : String)
    (rest : List String)
    (htru : c.isTruthy = true)
    (htr : (analyze_multi_page_run loads key pages (some c)).page_trades = t :: rest)
    (hng : t ≠ "general") :
    (∀ x ∈ rest, x = t)
    ∧ ∃ c2, (analyze_multi_page_run loads key pages (some c)).ctx_out = some c2
        ∧ c2.trade_type = some t := by
  rw [run_page_trades_eq] at htr
  rw [run_ctx_out_eq]
  cases pages with
  | nil => simp [multiPageLoop] at htr
  | cons p pages2 =>
    rcases hl : multiPageLoop loads key (p :: pages2).length (p :: pages2) 1
        (some c) {} [] [] with ⟨rr, c2, res, trs⟩
    rw [hl] at htr
    dsimp only at htr ⊢
    simp only [multiPageLoop, List.nil_append] at hl
    have hptruthy := pageCtxOf_isTruthy (some c) 1 (p :: pages2).length
    have hshared : ctxSharedOf (some c) = true := by
      simp [ctxSharedOf, htru]
    rcases hab : analyze_blueprint loads p.model_call key p.ocr_text
        (some (pageCtxOf (some c) 1 (p :: pages2).length)) with ⟨rr1, cc⟩
    rw [hab] at hl
    have hmem1 : detect_trade_type p.ocr_text
        (some (pageCtxOf (some c) 1 (p :: pages2).length)) ∈ TRADE_TYPES :=
      detect_trade_type_mem _ _
    have hcc : cc = some (enhanceCtx (detect_scale p.ocr_text)
        (detect_trade_type p.ocr_text (some (pageCtxOf (some c) 1 (p :: pages2).length)))
        (pageCtxOf (some c) 1 (p :: pages2).length)) := by
      have h2 : (analyze_blueprint loads p.model_call key p.ocr_text
          (some (pageCtxOf (some c) 1 (p :: pages2).length))).2 = cc := by rw [hab]
      rw [analyze_blueprint_snd_eq, call_vision_model_snd loads p.model_call key
          p.ocr_text _ hptruthy] at h2
      exact h2.symm
    cases rr1 with
    | error e =>
      simp only [Prod.mk.injEq] at hl
      obtain ⟨-, hc2, -, htrs⟩ := hl
      rw [← htrs] at htr
      obtain ⟨heq, hrest⟩ : detect_trade_type p.ocr_text
          (some (pageCtxOf (some c) 1 (p :: pages2).length)) = t ∧ [] = rest := by
        simpa using htr
      have hng1 : detect_trade_type p.ocr_text
          (some (pageCtxOf (some c) 1 (p :: pages2).length)) ≠ "general" := by
        rw [heq]; exact hng
      constructor
      · intro x hx
        rw [← hrest] at hx
        simp at hx
      · refine ⟨enhanceCtx (detect_scale p.ocr_text)
          (detect_trade_type p.ocr_text (some (pageCtxOf (some c) 1 (p :: pages2).length)))
          (pageCtxOf (some c) 1 (p :: pages2).length), ?_, ?_⟩
        · rw [hshared] at hc2
          simp only [if_true] at hc2
          rw [← hc2, hcc]
        · rw [(enhanceCtx_trade _ _ _ hng1).1, heq]
    | ok a =>
      rw [hshared] at hl
      simp only [if_true] at hl
      rw [hcc] at hl
      obtain ⟨nt, hnt⟩ := multiPageLoop_trades_prefix loads key (p :: pages2).length
        pages2 2 (some (enhanceCtx (detect_scale p.ocr_text)
          (detect_trade_type p.ocr_text (some (pageCtxOf (some c) 1 (p :: pages2).length)))
          (pageCtxOf (some c) 1 (p :: pages2).length)))
        (aggExtend {} a 1) [a]
        [detect_trade_type p.ocr_text (some (pageCtxOf (some c) 1 (p :: pages2).length))]
        rr c2 res trs hl
      rw [htr] at hnt
      obtain ⟨heq, hntrest⟩ : detect_trade_type p.ocr_text
          (some (pageCtxOf (some c) 1 (p :: pages2).length)) = t ∧ nt = rest := by
        have h2 := hnt.symm
        simpa using h2
      rw [heq] at hl
      obtain ⟨⟨nt2, hnt2, hall⟩, c3, hc3, hc3t⟩ :=
        multiPageLoop_override_invariant loads key (p :: pages2).length t
          (heq ▸ hmem1) hng pages2 2
          (enhanceCtx (detect_scale p.ocr_text) t
            (pageCtxOf (some c) 1 (p :: pages2).length))
          (aggExtend {} a 1) [a] [t] rr c2 res trs
          (enhanceCtx_trade _ _ _ hng).2 (enhanceCtx_trade _ _ _ hng).1 hl
      rw [htr] at hnt2
      have hnt2rest : nt2 = rest := by
        have h2 := hnt2.symm
        simpa using h2
      constructor
      · intro x hx
        exact hall x (by rw [hnt2rest]; exact hx)
      · exact ⟨c3, hc3, hc3t⟩

/-- C10 counterexample: a caller-supplied EMPTY context dict is falsy,
so `context or \x7b\x7d` gives every page a fresh dict instead of
sharing the caller's object.  The first page detects the non-general
trade "electrical", yet the second page re-runs keyword classification
(returning "plumbing", not the override), and the caller's dict is
unchanged after the call — refuting the claim as stated. -/
theorem context_sharing_counterexample :
    (analyze_multi_page_run (fun _ => .error .jsonDecodeError) false
        [⟨"electrical lighting outlet", .ok "x"⟩, ⟨"plumbing water drain", .ok "x"⟩]
        (some {})).page_trades = ["electrical", "plumbing"]
    ∧ (analyze_multi_page_run (fun _ => .error .jsonDecodeError) false
        [⟨"electrical lighting outlet", .ok "x"⟩, ⟨"plumbing water drain", .ok "x"⟩]
        (some {})).ctx_out = some ({} : Ctx)
    ∧ ("electrical" : String) ≠ "general"
    ∧ ("plumbing" : String) ≠ "electrical"
    ∧ ({} : Ctx).trade_type = none := by
  refine ⟨?_, ?_, by decide, by decide, rfl⟩
  · rw [run_page_trades_eq]
    simp only [multiPageLoop, analyze_blueprint_mock, pageCtxOf_isTruthy, if_true,
      List.nil_append]
    decide
  · rw [run_ctx_out_eq]
    simp only [multiPageLoop, analyze_blueprint_mock, pageCtxOf_isTruthy, if_true,
      List.nil_append]
    decide

/-- Witness for the amended C10: a truthy caller context (one
unmodelled key) is shared across two pages; page 1 detects
"electrical", page 2 returns it through the override, and the returned
context object carries `trade_type = "electrical"`. -/
theorem context_sharing_rule_witness :
    (∀ x ∈ ["electrical"], x = "electrical")
    ∧ ∃ c2, (analyze_multi_page_run (fun _ => .error .jsonDecodeError) false
        [⟨"electrical lighting outlet", .ok "x"⟩, ⟨"plumbing water drain", .ok "x"⟩]
        (some { extra := true })).ctx_out = some c2
        ∧ c2.trade_type = some "electrical" :=
  context_sharing_rule (fun _ => .error .jsonDecodeError) false
    [⟨"electrical lighting outlet", .ok "x"⟩, ⟨"plumbing water drain", .ok "x"⟩]
    { extra := true } "electrical" ["electrical"] (by decide)
    (by
      rw [run_page_trades_eq]
      simp only [multiPageLoop, analyze_blueprint_mock, pageCtxOf_isTruthy, if_true,
        List.nil_append, detect_scale, detect_scale_go, SCALE_PATTERNS, reSearch,
        searchAux, eqFootTail, aposDash, List.cons_append, matchSeq, starGreedy]
      decide)
    (by decide)

/-! ## Witness data for C6: a one-page mock run -/

/-- One page with empty OCR text for the C6 witness. -/
def c6pages : List PageInput := [⟨"", .ok "x"⟩]

/-- The C6 witness run (mock mode, no caller context). -/
def c6run : MultiPageRun :=
  analyze_multi_page_run (fun _ => .error .jsonDecodeError) false c6pages none

/-- The aggregate analysis the C6 witness run returns. -/
def c6A : BlueprintAnalysis :=
  match c6run.result with
  | .ok a => a
  | .error _ => ⟨[], [], [], [], [], 0, none, none⟩

/-- The first page's analysis in the C6 witness run. -/
def c6P : BlueprintAnalysis :=
  c6run.page_results.headD ⟨[], [], [], [], [], 0, none, none⟩

/-- Witness for C6: on a concrete one-page mock run, the aggregate's
scale and trade metadata equal the first page's. -/
theorem multi_page_first_page_metadata_witness :
    c6A.scale_info = c6P.scale_info ∧ c6A.trade_type = c6P.trade_type := by
  have hl : multiPageLoop (fun _ => .error .jsonDecodeError) false c6pages.length
      c6pages 1 none {} [] []
      = (.ok (aggExtend {} (toAnalysis (mock_vision_response
            (detect_trade_type "" (some (pageCtxOf none 1 c6pages.length))))) 1),
         none,
         [toAnalysis (mock_vision_response
            (detect_trade_type "" (some (pageCtxOf none 1 c6pages.length))))],
         [detect_trade_type "" (some (pageCtxOf none 1 c6pages.length))]) := by
    simp only [c6pages, multiPageLoop, analyze_blueprint_mock, pageCtxOf_isTruthy,
      if_true, List.nil_append]
    rfl
  have hrun := run_of_loop_ok (fun _ => .error .jsonDecodeError) false c6pages none
    _ none _ _ hl
  have hres : c6run.result = .ok c6A := by
    unfold c6A c6run
    rw [hrun]
  have hpr : c6run.page_results = c6P :: c6run.page_results.tail := by
    unfold c6P c6run
    rw [hrun]
    rfl
  exact multi_page_first_page_metadata (fun _ => .error .jsonDecodeError) false
    c6pages none c6A c6P _ hres hpr

end AiService
